import Mathlib

/-!
Verification of the PLDA inference core (`plda/model.py`).

The file shallowly embeds the source module: numpy arrays become lists
(`Arr` distinguishes 1-D vectors, 2-D matrices and the 3-D arrays that a
`None` fancy index can produce), Python exceptions become an explicit
error type threaded through `Except`, and the model object becomes a
record of `Option`-valued parameter fields (a field is `none` exactly when
the Python attribute is `None`, as after `__init__`).

External collaborators (the repository's optimizer module, sklearn's PCA
and scipy's Gaussian evaluator) are not part of the embedded source; they
are modelled from the specification's interface contracts and are marked
as such in their doc comments.
-/

/-- The Python exception kinds the embedded code can raise:
`assert` failures, explicit `raise ValueError`, operations on `None`
(`TypeError`), and attribute access on `None` (`AttributeError`). -/
inductive Err where
  | assertionError
  | valueError
  | typeError
  | attributeError
  | keyError
  deriving DecidableEq, Repr

/-- A numpy array of rank 1, 2 or 3.  Rank 3 only arises through the
`data[..., None]` fancy index taken when `relevant_U_dims` is `None`;
rank-4 arrays never appear in any analysed execution and are not
modelled. -/
inductive Arr (α : Type) where
  | vec : List α → Arr α
  | mat : List (List α) → Arr α
  | cube : List (List (List α)) → Arr α
  deriving DecidableEq, Repr

/-- `shape[-1]` of an array (for well-formed, non-ragged arrays). -/
def Arr.lastDim : Arr α → Nat
  | .vec v => v.length
  | .mat m => (m.headD []).length
  | .cube c => ((c.headD []).headD []).length

/-- `data[None, :]` applied when `len(data.shape) == 1`: promote a single
vector to a batch of one row; higher-rank data is left unchanged. -/
def Arr.promote : Arr α → Arr α
  | .vec v => .mat [v]
  | x => x

/-- `np.concatenate([a, b])` along the leading axis; arrays of different
rank cannot be concatenated (`ValueError`).  The equal-trailing-dimension
requirement on rank ≥ 2 inputs is not re-checked here: every call site
reaches `concatenate` only after asserting both trailing dimensions. -/
def Arr.concatenate : Arr α → Arr α → Except Err (Arr α)
  | .vec a, .vec b => .ok (.vec (a ++ b))
  | .mat a, .mat b => .ok (.mat (a ++ b))
  | .cube a, .cube b => .ok (.cube (a ++ b))
  | _, _ => .error .valueError

/-- Modelled from the spec: the dimensionality-reduction collaborator
(sklearn `PCA`).  It exposes its input and output dimensionalities and a
forward / inverse projection pair (`transform` / `inverse_transform`);
nothing else about it is assumed. -/
structure PCABasis (α : Type) where
  n_components : Nat
  n_features : Nat
  transform : List (List α) → List (List α)
  inverse_transform : List (List α) → List (List α)

/-- A `{mean, cov_diag}` Bayesian parameter set. -/
structure GaussParams (α : Type) where
  mean : List α
  cov_diag : List α
  deriving DecidableEq, Repr

/-- The model object: each field is `None` until `fit` assigns it. -/
structure Model (α : Type) where
  pca : Option (PCABasis α)
  m : Option (List α)
  A : Option (List (List α))
  Psi : Option (List α)
  relevant_U_dims : Option (List Nat)
  inv_A : Option (List (List α))
  prior_params : Option (GaussParams α)
  posterior_params : Option (List (Nat × GaussParams α))
  posterior_predictive_params : Option (List (Nat × GaussParams α))

/-- `Model.__init__`: every parameter field starts out as `None`. -/
def Model.init : Model α :=
  ⟨none, none, none, none, none, none, none, none, none⟩

/-- Dot product of two rows (`np.matmul` inner step). -/
def dot [CommRing α] (a b : List α) : α :=
  (List.zipWith (fun x y => x * y) a b).sum

/-- `np.matmul(row, M.T)`: the row is dotted against each row of `M`. -/
def rowApply [CommRing α] (M : List (List α)) (r : List α) : List α :=
  M.map (fun mrow => dot r mrow)

/-- `transform_D_to_X(data, pca)`: `data if pca is None else pca.transform(data)`. -/
def transform_D_to_X (data : List (List α)) (pca : Option (PCABasis α)) :
    List (List α) :=
  match pca with
  | none => data
  | some p => p.transform data

/-- `transform_X_to_U(data, inv_A, m)`: `np.matmul(data - m, inv_A.T)`. -/
def transform_X_to_U [CommRing α] (data : List (List α))
    (inv_A : List (List α)) (m : List α) : List (List α) :=
  data.map (fun r => rowApply inv_A (List.zipWith (fun x y => x - y) r m))

/-- Row-level coordinate selection `r[relevant_U_dims]`. -/
def selectRow [Zero α] (dims : List Nat) (r : List α) : List α :=
  dims.map (fun i => r.getD i 0)

/-- `transform_U_to_U_model(data, relevant_U_dims)`: `data[..., relevant_U_dims]`. -/
def transform_U_to_U_model [Zero α] (data : List (List α)) (dims : List Nat) :
    List (List α) :=
  data.map (selectRow dims)

/-- Row-level zero-filled embedding: `U = zeros(dim); U[dims] = r`.
Fancy-index assignment writes sequentially, so a later duplicate index
would win; the fitted model's `relevant_U_dims` has no duplicates. -/
def embedRow [Zero α] (dims : List Nat) (dim : Nat) (r : List α) : List α :=
  (dims.zip r).foldl (fun acc p => acc.set p.1 p.2) (List.replicate dim 0)

/-- `transform_U_model_to_U(data, relevant_U_dims, U_dimensionality)`. -/
def transform_U_model_to_U [Zero α] (data : List (List α)) (dims : List Nat)
    (dim : Nat) : List (List α) :=
  data.map (embedRow dims dim)

/-- `transform_U_to_X(data, A, m)`: `m + np.matmul(data, A.T)`. -/
def transform_U_to_X [CommRing α] (data : List (List α))
    (A : List (List α)) (m : List α) : List (List α) :=
  data.map (fun r => List.zipWith (fun x y => x + y) m (rowApply A r))

/-- `transform_X_to_D(data, pca)`: `data if pca is None else pca.inverse_transform(data)`. -/
def transform_X_to_D (data : List (List α)) (pca : Option (PCABasis α)) :
    List (List α) :=
  match pca with
  | none => data
  | some p => p.inverse_transform data

/-- `get_space_walk(from_space, to_space)`: the list of consecutive space
pairs along the fixed chain; the `assert` that both identifiers are known
becomes an `AssertionError`. -/
def get_space_walk (from_space to_space : String) :
    Except Err (List (String × String)) :=
  let U_model_to_D := ["U_model", "U", "X", "D"]
  let D_to_U_model := U_model_to_D.reverse
  if from_space ∈ U_model_to_D ∧ to_space ∈ U_model_to_D then
    let from_idx := U_model_to_D.indexOf from_space
    let to_idx := U_model_to_D.indexOf to_space
    let spaces := if to_idx < from_idx then D_to_U_model else U_model_to_D
    let from_idx := spaces.indexOf from_space
    let to_idx := spaces.indexOf to_space
    let from_spaces := (spaces.drop from_idx).take (to_idx - from_idx)
    let to_spaces := (spaces.drop (from_idx + 1)).take (to_idx - from_idx)
    .ok (from_spaces.zip to_spaces)
  else
    .error .assertionError

/-- `Model.get_dimensionality(space)`.  Reading `.shape` or an sklearn
attribute off a `None` parameter raises `AttributeError`; an unknown space
identifier raises `ValueError`. -/
def Model.get_dimensionality (model : Model α) (space : String) :
    Except Err Nat :=
  if space = "U_model" then
    match model.relevant_U_dims with
    | some dims => .ok dims.length
    | none => .error .attributeError
  else if space = "U" then
    match model.A with
    | some A => .ok A.length
    | none => .error .attributeError
  else if space = "X" then
    match model.A with
    | some A => .ok A.length
    | none => .error .attributeError
  else if space = "D" then
    match model.pca with
    | none =>
      match model.m with
      | some m => .ok m.length
      | none => .error .attributeError
    | some p => .ok p.n_features
  else
    .error .valueError

/-- One unfolding of the body of `Model.transform`.  The fuel argument
mirrors the source's recursion (`self.transform` called once per walk
step); every walk step is an adjacent pair handled by a direct branch, so
the recursion depth is bounded and the out-of-fuel case is unreachable. -/
def transformFuel [CommRing α] : Nat → Model α → Arr α → String → String →
    Except Err (Arr α)
  | 0, _, _, _, _ => .error .valueError
  | fuel + 1, model, data, from_space, to_space =>
    let data := data.promote
    if from_space = "D" ∧ to_space = "X" then
      match model.pca with
      | none => .ok data
      | some p =>
        match data with
        | .mat M => .ok (.mat (transform_D_to_X M (some p)))
        | _ => .error .valueError
    else if from_space = "X" ∧ to_space = "U" then
      -- `np.matmul(data - m, inv_A.T)`: `data - m` is evaluated first, so a
      -- `None` mean raises `TypeError` before a `None` `inv_A` could raise
      -- `AttributeError` at `.T`.
      match model.m with
      | none => .error .typeError
      | some m =>
        match model.inv_A with
        | none => .error .attributeError
        | some iA =>
          match data with
          | .mat M => .ok (.mat (transform_X_to_U M iA m))
          | .cube C => .ok (.cube (C.map (fun P => transform_X_to_U P iA m)))
          | .vec v => .ok (.mat (transform_X_to_U [v] iA m))
    else if from_space = "U" ∧ to_space = "U_model" then
      match model.relevant_U_dims with
      | some dims =>
        match data with
        | .mat M => .ok (.mat (transform_U_to_U_model M dims))
        | .cube C => .ok (.cube (C.map (fun P => transform_U_to_U_model P dims)))
        | .vec v => .ok (.mat (transform_U_to_U_model [v] dims))
      | none =>
        -- `data[..., None]` with a `None` index is `np.newaxis`: the batch is
        -- silently reshaped with an extra trailing axis instead of failing.
        match data with
        | .mat M => .ok (.cube (M.map (fun r => r.map (fun x => [x]))))
        | _ => .error .valueError
    else if from_space = "U_model" ∧ to_space = "U" then
      match model.get_dimensionality "U" with
      | .error e => .error e
      | .ok dim =>
        match model.relevant_U_dims with
        | some dims =>
          match data with
          | .mat M => .ok (.mat (transform_U_model_to_U M dims dim))
          | .cube C => .ok (.cube (C.map (fun P => transform_U_model_to_U P dims dim)))
          | .vec v => .ok (.mat (transform_U_model_to_U [v] dims dim))
        | none => .error .valueError
    else if from_space = "U" ∧ to_space = "X" then
      -- `m + np.matmul(data, A.T)`: `A.T` is evaluated inside the right
      -- operand first, so a `None` loading raises `AttributeError`.
      match model.A with
      | none => .error .attributeError
      | some A =>
        match model.m with
        | none => .error .typeError
        | some m =>
          match data with
          | .mat M => .ok (.mat (transform_U_to_X M A m))
          | .cube C => .ok (.cube (C.map (fun P => transform_U_to_X P A m)))
          | .vec v => .ok (.mat (transform_U_to_X [v] A m))
    else if from_space = "X" ∧ to_space = "D" then
      match model.pca with
      | none => .ok data
      | some p =>
        match data with
        | .mat M => .ok (.mat (transform_X_to_D M (some p)))
        | _ => .error .valueError
    else
      match get_space_walk from_space to_space with
      | .error e => .error e
      | .ok walk =>
        walk.foldlM (fun acc pr => transformFuel fuel model acc pr.1 pr.2) data

/-- `Model.transform(data, from_space, to_space)`: the recursion of the
source only ever recurses once (walk steps are direct pairs), so fuel 2
realises it exactly. -/
def Model.transform [CommRing α] (model : Model α) (data : Arr α)
    (from_space to_space : String) : Except Err (Arr α) :=
  transformFuel 2 model data from_space to_space

/-- Modelled from the spec: the diagonal-covariance multivariate Gaussian
log-density evaluator (`scipy.stats.multivariate_normal(mean,
np.diag(cov_diag)).logpdf`), evaluated at a single vector. -/
noncomputable def gaussianDiagLogpdf (mean cov_diag x : List ℝ) : ℝ :=
  ∑ j ∈ Finset.range cov_diag.length,
    (-(1 / 2) * Real.log (2 * Real.pi * cov_diag.getD j 0)
      - (x.getD j 0 - mean.getD j 0) ^ 2 / (2 * cov_diag.getD j 0))

/-- Column `j` of a batch (`axis=-2` operations act per column). -/
def colAt (M : List (List ℝ)) (j : Nat) : List ℝ :=
  M.map (fun r => r.getD j 0)

/-- The pure value computed by `calc_logp_marginal_likelihood` on a 2-D
batch `M` with prior covariance diagonal `psi_diag`:
`log_constant + log_exponent_1 + log_exponent_2` summed over `axis=-1`. -/
noncomputable def marginalSum (psi_diag : List ℝ) (M : List (List ℝ)) : ℝ :=
  ∑ j ∈ Finset.range psi_diag.length,
    (-(1 / 2) * (M.length : ℝ) * Real.log (2 * Real.pi)
      + -(1 / 2) * Real.log ((M.length : ℝ) * psi_diag.getD j 0 + 1)
      + -(1 / 2) * ((colAt M j).map (fun x => x ^ 2)).sum
      + (1 / 2) * ((M.length : ℝ) ^ 2 * psi_diag.getD j 0
            * ((colAt M j).sum / (M.length : ℝ)) ^ 2)
          / ((M.length : ℝ) * psi_diag.getD j 0 + 1))

/-- `Model.calc_logp_marginal_likelihood(U_model)`: asserts the trailing
dimension, promotes a single vector to a batch of one, and evaluates the
closed-form marginal likelihood.  A 3-D batch would be computed by numpy
but is outside every analysed execution and is not modelled. -/
noncomputable def Model.calc_logp_marginal_likelihood (model : Model ℝ)
    (U_model : Arr ℝ) : Except Err ℝ :=
  match model.get_dimensionality "U_model" with
  | .error e => .error e
  | .ok d =>
    if U_model.lastDim ≠ d then .error .assertionError
    else
      match model.prior_params with
      | none => .error .typeError
      | some pp =>
        match U_model.promote with
        | .mat M => .ok (marginalSum pp.cov_diag M)
        | _ => .error .valueError

/-- `Model.calc_logp_prior(v_model)`. -/
noncomputable def Model.calc_logp_prior (model : Model ℝ) (v_model : Arr ℝ) :
    Except Err ℝ :=
  match model.get_dimensionality "U_model" with
  | .error e => .error e
  | .ok d =>
    if v_model.lastDim ≠ d then .error .assertionError
    else
      match model.prior_params with
      | none => .error .typeError
      | some pp =>
        match v_model with
        | .vec v => .ok (gaussianDiagLogpdf pp.mean pp.cov_diag v)
        | _ => .error .valueError

/-- Dictionary lookup `params[category]`; a missing key raises
`KeyError`. -/
def lookupCat (ps : List (Nat × GaussParams ℝ)) (category : Nat) :
    Option (GaussParams ℝ) :=
  (ps.find? (fun p => p.1 = category)).map (fun p => p.2)

/-- `Model.calc_logp_posterior(v_model, category)`. -/
noncomputable def Model.calc_logp_posterior (model : Model ℝ) (v_model : Arr ℝ)
    (category : Nat) : Except Err ℝ :=
  match model.get_dimensionality "U_model" with
  | .error e => .error e
  | .ok d =>
    if v_model.lastDim ≠ d then .error .assertionError
    else
      match model.posterior_params with
      | none => .error .typeError
      | some ps =>
        match lookupCat ps category with
        | none => .error .keyError
        | some pp =>
          match v_model with
          | .vec v => .ok (gaussianDiagLogpdf pp.mean pp.cov_diag v)
          | _ => .error .valueError

/-- `Model.calc_logp_posterior_predictive(U_model, category)`. -/
noncomputable def Model.calc_logp_posterior_predictive (model : Model ℝ)
    (U_model : Arr ℝ) (category : Nat) : Except Err ℝ :=
  match model.get_dimensionality "U_model" with
  | .error e => .error e
  | .ok d =>
    if U_model.lastDim ≠ d then .error .assertionError
    else
      match model.posterior_predictive_params with
      | none => .error .typeError
      | some ps =>
        match lookupCat ps category with
        | none => .error .keyError
        | some pp =>
          match U_model with
          | .vec v => .ok (gaussianDiagLogpdf pp.mean pp.cov_diag v)
          | _ => .error .valueError

/-- `Model.calc_same_diff_log_likelihood_ratio(U_model_p, U_model_g)`. -/
noncomputable def Model.calc_same_diff_log_likelihood_ratio (model : Model ℝ)
    (U_model_p U_model_g : Arr ℝ) : Except Err ℝ :=
  match model.get_dimensionality "U_model" with
  | .error e => .error e
  | .ok d =>
    if U_model_p.lastDim ≠ d then .error .assertionError
    else
      match model.get_dimensionality "U_model" with
      | .error e => .error e
      | .ok d' =>
        if U_model_g.lastDim ≠ d' then .error .assertionError
        else
          match U_model_p.concatenate U_model_g with
          | .error e => .error e
          | .ok U_model_same => do
            let ll_same ← model.calc_logp_marginal_likelihood U_model_same
            let ll_p ← model.calc_logp_marginal_likelihood U_model_p
            let ll_g ← model.calc_logp_marginal_likelihood U_model_g
            .ok (ll_same - (ll_p + ll_g))

/-- Modelled from the spec: the external collaborators invoked by `fit`
(the repository's optimizer module — scatter matrices, maximum-likelihood
estimator, Bayesian parameter derivations — plus numpy's matrix rank and
the sklearn `PCA` constructor and fitting routine).  Their numeric
behaviour is out of scope; `fit` is verified for every possible
collaborator. -/
structure Externals (α : Type) where
  calc_scatter_matrices :
    List (List α) → List Nat → List (List α) × List (List α)
  matrix_rank : List (List α) → Nat
  mkPCA : Option Nat → PCABasis α
  pcaFit : PCABasis α → List (List α) → PCABasis α
  optimize_maximum_likelihood :
    List (List α) → List Nat →
      List α × List (List α) × List α × List Nat × List (List α)
  get_prior_params : List α → List Nat → GaussParams α
  get_posterior_params :
    List (List α) → List Nat → GaussParams α → List (Nat × GaussParams α)
  get_posterior_predictive_params :
    List (Nat × GaussParams α) → List (Nat × GaussParams α)

/-- The `pca` argument of `fit`: `None`, the string `"skip"`, or an
externally supplied basis. -/
inductive PcaArg (α : Type) where
  | auto
  | skip
  | given : PCABasis α → PcaArg α

/-- The resolution of the `n_components` passed to `PCA(...)` in the
`pca=None` branch, lines 178–185 of the source: Python's
`if feat_dim != matrix_rank` is truthy whenever `feat_dim` is `None`, so
the estimated rank is then discarded and `PCA(n_components=None)` is
built. -/
def resolve_n_components (feat_dim : Option Nat) (matrix_rank : Nat) :
    Option Nat :=
  if feat_dim ≠ some matrix_rank then feat_dim else some matrix_rank

/-- `Model.fit(data, labels, feat_dim, pca)`.  The returned pair is the
call's outcome together with the model state after the call: a Python
exception leaves behind whatever attribute assignments already ran. -/
def Model.fit [CommRing α] (exts : Externals α) (model : Model α)
    (data : Arr α) (labels : List Nat) (feat_dim : Option Nat)
    (pca : PcaArg α) : Except Err Unit × Model α :=
  match data with
  | .mat M =>
    if labels.length ≠ M.length then (.error .assertionError, model)
    else
      let data_dim := Arr.lastDim (.mat M)
      let afterPca : Except Err Unit × Model α :=
        match pca with
        | .auto =>
          let sw := (exts.calc_scatter_matrices M labels).2
          let r := exts.matrix_rank sw
          (.ok ⟨⟩, { model with pca := some (exts.mkPCA (resolve_n_components feat_dim r)) })
        | .skip => (.ok ⟨⟩, { model with pca := none })
        | .given p =>
          let model := { model with pca := some p }
          if h : feat_dim.isSome then
            if p.n_components ≠ feat_dim.get h then (.error .valueError, model)
            else if data_dim ≠ p.n_features then (.error .valueError, model)
            else (.ok ⟨⟩, model)
          else if data_dim ≠ p.n_features then (.error .valueError, model)
          else (.ok ⟨⟩, model)
      match afterPca with
      | (.error e, model) => (.error e, model)
      | (.ok _, model) =>
        let failNoPca : Bool :=
          match feat_dim, model.pca with
          | some k, none => k ≠ data_dim
          | _, _ => false
        if failNoPca then (.error .valueError, model)
        else
          let model :=
            match model.pca with
            | none => model
            | some p => { model with pca := some (exts.pcaFit p M) }
          match model.transform (.mat M) "D" "X" with
          | .error e => (.error e, model)
          | .ok X =>
            match X with
            | .mat XM =>
              let fitted := exts.optimize_maximum_likelihood XM labels
              let model := { model with
                m := some fitted.1, A := some fitted.2.1,
                Psi := some fitted.2.2.1,
                relevant_U_dims := some fitted.2.2.2.1,
                inv_A := some fitted.2.2.2.2 }
              match model.transform (.mat XM) "X" "U_model" with
              | .error e => (.error e, model)
              | .ok U_model =>
                match U_model with
                | .mat UM =>
                  let prior := exts.get_prior_params fitted.2.2.1 fitted.2.2.2.1
                  let model := { model with prior_params := some prior }
                  let post := exts.get_posterior_params UM labels prior
                  let model := { model with posterior_params := some post }
                  let model := { model with
                    posterior_predictive_params :=
                      some (exts.get_posterior_predictive_params post) }
                  (.ok ⟨⟩, model)
                | _ => (.error .valueError, model)
            | _ => (.error .valueError, model)
  | _ => (.error .assertionError, model)

/-- The fixed ordered chain of coordinate spaces, D ↔ X ↔ U ↔ U_model. -/
def spaceChain : List String := ["D", "X", "U", "U_model"]

/-- Defined from the spec's words, as the comparison point for the path
refinement: "Path direction is determined purely by the relative ordering
of the two spaces in the fixed chain — there is exactly one path between
any two distinct spaces, and self-transforms are the identity
(zero-length path)."  The walk is the contiguous segment of the chain
from `a` to `b`, as consecutive pairs. -/
def chainWalk (a b : String) : List (String × String) :=
  let i := spaceChain.indexOf a
  let j := spaceChain.indexOf b
  if i ≤ j then
    (List.range (j - i)).map (fun t =>
      (spaceChain.getD (i + t) "", spaceChain.getD (i + t + 1) ""))
  else
    (List.range (i - j)).map (fun t =>
      (spaceChain.getD (i - t) "", spaceChain.getD (i - t - 1) ""))

/-- A small fitted model over ℚ (identity loading on one latent
dimension, no reduction basis), used to instantiate theorems with
hypotheses at concrete inputs. -/
def exampleModel : Model ℚ where
  pca := none
  m := some [0]
  A := some [[1]]
  Psi := some [1]
  relevant_U_dims := some [0]
  inv_A := some [[1]]
  prior_params := some ⟨[0], [1]⟩
  posterior_params := some [(0, ⟨[0], [1]⟩)]
  posterior_predictive_params := some [(0, ⟨[0], [2]⟩)]

/-- C8: for every pair of space identifiers in which either one is not
among the four known spaces, `transform` fails (the `assert` inside
`get_space_walk`, the error §7 files under `ConfigurationError` for
unknown space identifiers), and `get_dimensionality` fails with the
`ValueError` of its final `else` for an unknown space identifier. -/
theorem transform_and_dimensionality_fail_on_unknown_space [CommRing α]
    (model : Model α) (data : Arr α) (f t s : String)
    (hft : f ∉ spaceChain ∨ t ∉ spaceChain) (hs : s ∉ spaceChain) :
    model.transform data f t = .error .assertionError ∧
    model.get_dimensionality s = .error .valueError := by
  simp only [spaceChain, List.mem_cons, List.not_mem_nil, or_false,
    not_or] at hft hs
  obtain ⟨hs1, hs2, hs3, hs4⟩ := hs
  constructor
  · rcases hft with ⟨h1, h2, h3, h4⟩ | ⟨h1, h2, h3, h4⟩ <;>
      simp [Model.transform, transformFuel, get_space_walk, h1, h2, h3, h4]
  · simp [Model.get_dimensionality, hs1, hs2, hs3, hs4]

/-- C8 witness: the unknown identifier "Z" makes both operations fail on
a concrete model and input. -/
theorem transform_and_dimensionality_fail_on_unknown_space_witness :
    ("Z" ∉ spaceChain ∨ "X" ∉ spaceChain) ∧ ("Z2" ∉ spaceChain) ∧
    (exampleModel.transform (.vec [1]) "Z" "X" = .error .assertionError ∧
      exampleModel.get_dimensionality "Z2" = .error .valueError) :=
  ⟨by decide, by decide,
    transform_and_dimensionality_fail_on_unknown_space exampleModel
      (.vec [1]) "Z" "X" "Z2" (by decide) (by decide)⟩

/-- C3: on a fitted model the multi-hop transform from D to U_model is
the sequential composition of the three elementary transforms D→X, X→U,
U→U_model (for single vectors and for batches); `get_space_walk` computes
exactly the unique contiguous segment of the fixed chain described by the
spec (`chainWalk`), so there is exactly one path between any two known
spaces; and every self-transform returns the batch-promoted input
unchanged. -/
theorem transform_chain_composition [CommRing α]
    (model : Model α) (m : List α) (iA : List (List α)) (dims : List Nat)
    (hm : model.m = some m) (hiA : model.inv_A = some iA)
    (hdims : model.relevant_U_dims = some dims) :
    (∀ v : List α, model.transform (.vec v) "D" "U_model" =
        .ok (.mat (transform_U_to_U_model
          (transform_X_to_U (transform_D_to_X [v] model.pca) iA m) dims))) ∧
    (∀ M : List (List α), model.transform (.mat M) "D" "U_model" =
        .ok (.mat (transform_U_to_U_model
          (transform_X_to_U (transform_D_to_X M model.pca) iA m) dims))) ∧
    (∀ a ∈ spaceChain, ∀ b ∈ spaceChain,
        get_space_walk a b = .ok (chainWalk a b)) ∧
    (∀ (data : Arr α), ∀ a ∈ spaceChain,
        model.transform data a a = .ok data.promote) := by
  refine ⟨?_, ?_, ?_, ?_⟩
  · intro v
    cases hp : model.pca <;>
      simp only [Model.transform, transformFuel, get_space_walk, hm, hiA,
        hdims, hp, Arr.promote, transform_D_to_X, List.foldlM] <;> rfl
  · intro M
    cases hp : model.pca <;>
      simp only [Model.transform, transformFuel, get_space_walk, hm, hiA,
        hdims, hp, Arr.promote, transform_D_to_X, List.foldlM] <;> rfl
  · intro a ha b hb
    fin_cases ha <;> fin_cases hb <;> rfl
  · intro data a ha
    fin_cases ha <;> rfl

/-- C3 witness: the composition, path and identity facts instantiated on
a concrete fitted model and input. -/
theorem transform_chain_composition_witness :
    (exampleModel.m = some [0] ∧ exampleModel.inv_A = some [[1]] ∧
      exampleModel.relevant_U_dims = some [0]) ∧
    (exampleModel.transform (.vec [3]) "D" "U_model" =
      .ok (.mat (transform_U_to_U_model
        (transform_X_to_U (transform_D_to_X [[3]] exampleModel.pca) [[1]] [0])
        [0]))) := by
  refine ⟨⟨rfl, rfl, rfl⟩, ?_⟩
  exact (transform_chain_composition exampleModel [0] [[1]] [0]
    rfl rfl rfl).1 [3]

/-- C5 counterexample: on a freshly constructed (never fitted) model,
`transform(v, "D", "X")` does not fail at all — with no reduction basis
the D→X step is the identity, so the call returns the batch-promoted
input.  The claim that every such call fails with `NotFittedError` is
therefore false (the source defines no such error anywhere). -/
theorem unfitted_transform_returns_value :
    (Model.init : Model ℝ).transform (.vec [1, 2]) "D" "X" =
      .ok (.mat [[1, 2]]) := rfl

/-- C5 amended: on a model on which `fit` has not succeeded, no call
raises a `NotFittedError` (the code defines none).  The `logp_*` methods
and `get_dimensionality` on every known space fail with `AttributeError`
(`.shape` read off a `None` parameter); `transform` fails only for the
pairs whose path crosses X↔U or U_model→U (`TypeError` from `data - None`
or `AttributeError` from `None.T` / `None.shape`), while D↔X and every
self-transform return the batch-promoted input unchanged and U→U_model
silently returns the input reshaped with an extra trailing axis
(`data[..., None]` where the `None` index means `np.newaxis`). -/
theorem unfitted_model_behaviour (v : List ℝ) (cat : Nat) :
    ((Model.init : Model ℝ).transform (.vec v) "D" "X" = .ok (.mat [v])) ∧
    ((Model.init : Model ℝ).transform (.vec v) "X" "D" = .ok (.mat [v])) ∧
    (∀ a ∈ spaceChain,
      (Model.init : Model ℝ).transform (.vec v) a a = .ok (.mat [v])) ∧
    ((Model.init : Model ℝ).transform (.vec v) "X" "U" = .error .typeError) ∧
    ((Model.init : Model ℝ).transform (.vec v) "U" "X" =
      .error .attributeError) ∧
    ((Model.init : Model ℝ).transform (.vec v) "U_model" "U" =
      .error .attributeError) ∧
    ((Model.init : Model ℝ).transform (.vec v) "U" "U_model" =
      .ok (.cube [v.map (fun x => [x])])) ∧
    ((Model.init : Model ℝ).transform (.vec v) "D" "U" = .error .typeError) ∧
    ((Model.init : Model ℝ).transform (.vec v) "U" "D" =
      .error .attributeError) ∧
    ((Model.init : Model ℝ).transform (.vec v) "D" "U_model" =
      .error .typeError) ∧
    ((Model.init : Model ℝ).transform (.vec v) "U_model" "D" =
      .error .attributeError) ∧
    ((Model.init : Model ℝ).transform (.vec v) "X" "U_model" =
      .error .typeError) ∧
    ((Model.init : Model ℝ).transform (.vec v) "U_model" "X" =
      .error .attributeError) ∧
    (∀ s ∈ spaceChain,
      (Model.init : Model ℝ).get_dimensionality s = .error .attributeError) ∧
    ((Model.init : Model ℝ).calc_logp_prior (.vec v) =
      .error .attributeError) ∧
    ((Model.init : Model ℝ).calc_logp_posterior (.vec v) cat =
      .error .attributeError) ∧
    ((Model.init : Model ℝ).calc_logp_posterior_predictive (.vec v) cat =
      .error .attributeError) ∧
    ((Model.init : Model ℝ).calc_logp_marginal_likelihood (.vec v) =
      .error .attributeError) ∧
    ((Model.init : Model ℝ).calc_same_diff_log_likelihood_ratio
      (.vec v) (.vec v) = .error .attributeError) := by
  refine ⟨rfl, rfl, ?_, rfl, rfl, rfl, rfl, rfl, rfl, rfl, rfl, rfl, rfl,
    ?_, rfl, rfl, rfl, rfl, rfl⟩
  · intro a ha; fin_cases ha <;> rfl
  · intro s hs; fin_cases hs <;> rfl

/-- C7: the `n_components` actually passed to `PCA(...)` in the
`pca=None` branch always equals the caller's `feat_dim`, because Python's
`feat_dim != matrix_rank` is truthy whenever `feat_dim` is `None`; in
particular, with `feat_dim` omitted the estimated rank of the
within-scatter matrix is computed and then discarded
(`PCA(n_components=None)` is built), contradicting the documented intent
of using the auto-estimated rank. -/
theorem resolve_n_components_ignores_rank :
    (∀ (feat_dim : Option Nat) (matrix_rank : Nat),
      resolve_n_components feat_dim matrix_rank = feat_dim) ∧
    resolve_n_components none 3 = none ∧
    resolve_n_components none 3 ≠ some 3 := by
  refine ⟨?_, rfl, by decide⟩
  intro fd r
  unfold resolve_n_components
  split <;> simp_all

/-- The D→X step of `transform` on a 2-D batch always succeeds. -/
theorem transform_D_X_mat_ok [CommRing α] (model : Model α)
    (M : List (List α)) :
    model.transform (.mat M) "D" "X" =
      .ok (.mat (transform_D_to_X M model.pca)) := by
  cases hp : model.pca <;>
    simp [Model.transform, transformFuel, hp, Arr.promote, transform_D_to_X]

/-- The X→U_model walk on a 2-D batch succeeds once the latent
parameters are assigned. -/
theorem transform_X_U_model_mat_ok [CommRing α] (model : Model α)
    (m : List α) (iA : List (List α)) (dims : List Nat)
    (hm : model.m = some m) (hiA : model.inv_A = some iA)
    (hdims : model.relevant_U_dims = some dims) (M : List (List α)) :
    model.transform (.mat M) "X" "U_model" =
      .ok (.mat (transform_U_to_U_model (transform_X_to_U M iA m) dims)) := by
  simp only [Model.transform, transformFuel, get_space_walk, hm, hiA, hdims,
    Arr.promote, List.foldlM]
  rfl

/-- An already-stored reduction basis (identity on two features). -/
def pcaOld : PCABasis ℚ :=
  ⟨2, 2, fun M => M, fun M => M⟩

/-- An externally supplied basis whose output dimensionality (3) will
conflict with the requested `feat_dim`. -/
def pcaNew : PCABasis ℚ :=
  ⟨3, 2, fun M => M, fun M => M⟩

/-- A concrete instantiation of the external collaborators, used to
evaluate `fit` on explicit inputs (their numeric content is irrelevant to
the validation paths exercised). -/
def trivialExternals : Externals ℚ where
  calc_scatter_matrices := fun _ _ => ([], [])
  matrix_rank := fun _ => 0
  mkPCA := fun n => ⟨n.getD 0, 0, fun M => M, fun M => M⟩
  pcaFit := fun p _ => p
  optimize_maximum_likelihood := fun _ _ => ([], [], [], [], [])
  get_prior_params := fun _ _ => ⟨[], []⟩
  get_posterior_params := fun _ _ _ => []
  get_posterior_predictive_params := fun _ => []

/-- A model that already stores `pcaOld` as its reduction basis. -/
def modelWithOldPca : Model ℚ :=
  { Model.init with pca := some pcaOld }

/-- C6 counterexample: a `fit` call with an externally supplied basis
whose `n_components_` (3) conflicts with the requested `feat_dim` (5)
raises `ValueError`, yet the model's stored reduction basis has already
been overwritten (`self.pca = pca` runs before the validation), so the
model is not left in its prior state. -/
theorem fit_mutates_pca_on_validation_failure :
    ((modelWithOldPca.fit trivialExternals (.mat [[1, 1], [2, 2]]) [0, 1]
        (some 5) (.given pcaNew)).1 = .error .valueError) ∧
    ((modelWithOldPca.fit trivialExternals (.mat [[1, 1], [2, 2]]) [0, 1]
        (some 5) (.given pcaNew)).2.pca.map PCABasis.n_components = some 3) ∧
    (modelWithOldPca.pca.map PCABasis.n_components = some 2) :=
  ⟨rfl, rfl, rfl⟩

/-- C6 amended: on any `fit` call that fails, every parameter field
except the stored reduction basis is left exactly as it was before the
call; the reduction basis itself is overwritten before validation — set
to the supplied basis in the supplied-basis path and cleared in the skip
path — so it IS mutated on those failures.  On success all parameter
fields are replaced as a unit: the resulting state is fully determined by
the call's arguments (no pre-call field survives into it) and every
estimator-derived field is populated. -/
theorem fit_field_update_discipline [CommRing α]
    (exts : Externals α) (model : Model α) (data : Arr α) (labels : List Nat)
    (feat_dim : Option Nat) (pca : PcaArg α) :
    (∀ e : Err, (Model.fit exts model data labels feat_dim pca).1 = .error e →
      ((Model.fit exts model data labels feat_dim pca).2.m = model.m) ∧
      ((Model.fit exts model data labels feat_dim pca).2.A = model.A) ∧
      ((Model.fit exts model data labels feat_dim pca).2.Psi = model.Psi) ∧
      ((Model.fit exts model data labels feat_dim pca).2.relevant_U_dims =
        model.relevant_U_dims) ∧
      ((Model.fit exts model data labels feat_dim pca).2.inv_A =
        model.inv_A) ∧
      ((Model.fit exts model data labels feat_dim pca).2.prior_params =
        model.prior_params) ∧
      ((Model.fit exts model data labels feat_dim pca).2.posterior_params =
        model.posterior_params) ∧
      ((Model.fit exts model data labels feat_dim pca).2.posterior_predictive_params =
        model.posterior_predictive_params)) ∧
    (∀ M : List (List α), labels.length = M.length →
      (Model.fit exts model (.mat M) labels feat_dim .skip).2.pca = none) ∧
    (∀ (M : List (List α)) (p : PCABasis α) (e : Err),
      labels.length = M.length →
      (Model.fit exts model (.mat M) labels feat_dim (.given p)).1 =
        .error e →
      (Model.fit exts model (.mat M) labels feat_dim (.given p)).2.pca =
        some p) ∧
    (∀ model' : Model α,
      (Model.fit exts model data labels feat_dim pca).1 = .ok () →
      Model.fit exts model' data labels feat_dim pca =
        Model.fit exts model data labels feat_dim pca) ∧
    ((Model.fit exts model data labels feat_dim pca).1 = .ok () →
      ((Model.fit exts model data labels feat_dim pca).2.m.isSome ∧
       (Model.fit exts model data labels feat_dim pca).2.A.isSome ∧
       (Model.fit exts model data labels feat_dim pca).2.Psi.isSome ∧
       (Model.fit exts model data labels feat_dim pca).2.relevant_U_dims.isSome ∧
       (Model.fit exts model data labels feat_dim pca).2.inv_A.isSome ∧
       (Model.fit exts model data labels feat_dim pca).2.prior_params.isSome ∧
       (Model.fit exts model data labels feat_dim pca).2.posterior_params.isSome ∧
       (Model.fit exts model data labels feat_dim pca).2.posterior_predictive_params.isSome)) := by
  refine ⟨?_, ?_, ?_, ?_, ?_⟩
  · intro e h
    rcases data with v | M | c
    · simp [Model.fit]
    · by_cases hl : labels.length ≠ M.length
      · simp [Model.fit, hl]
      · rcases pca with _ | _ | p <;>
          simp only [Model.fit, hl, if_false, reduceIte] <;>
          simp_all [Model.fit, transform_D_X_mat_ok,
            transform_X_U_model_mat_ok] <;>
          split_ifs at h ⊢ <;> simp_all
    · simp [Model.fit]
  · intro M hlab
    simp only [Model.fit, hlab, ne_eq, not_true_eq_false, if_false, reduceIte]
    simp_all [Model.fit, transform_D_X_mat_ok, transform_X_U_model_mat_ok]
    split_ifs <;> simp_all
  · intro M p e hlab h
    simp only [Model.fit, hlab, ne_eq, not_true_eq_false, if_false,
      reduceIte] at h ⊢
    simp_all [Model.fit, transform_D_X_mat_ok, transform_X_U_model_mat_ok]
    split_ifs at h ⊢ <;> simp_all
  · intro model' h
    rcases data with v | M | c
    · simp [Model.fit] at h
    · by_cases hl : labels.length ≠ M.length
      · simp [Model.fit, hl] at h
      · rcases pca with _ | _ | p <;>
          simp only [Model.fit, hl, if_false, reduceIte] at h ⊢ <;>
          simp_all [Model.fit, transform_D_X_mat_ok,
            transform_X_U_model_mat_ok] <;>
          split_ifs at h ⊢ <;> simp_all
    · simp [Model.fit] at h
  · intro h
    rcases data with v | M | c
    · simp [Model.fit] at h
    · by_cases hl : labels.length ≠ M.length
      · simp [Model.fit, hl] at h
      · rcases pca with _ | _ | p <;>
          simp only [Model.fit, hl, if_false, reduceIte] at h ⊢ <;>
          simp_all [Model.fit, transform_D_X_mat_ok,
            transform_X_U_model_mat_ok] <;>
          split_ifs at h ⊢ <;> simp_all
    · simp [Model.fit] at h

/-- C6 amended witness: on concrete calls — a failing supplied-basis fit
(non-basis fields preserved, basis kept at the new value), a failing skip
fit (basis cleared), and a successful skip fit (result independent of the
pre-call state, estimator fields populated). -/
theorem fit_field_update_discipline_witness :
    ((modelWithOldPca.fit trivialExternals (.mat [[1, 1], [2, 2]]) [0, 1]
        (some 7) (.given pcaNew)).1 = .error .valueError ∧
      (modelWithOldPca.fit trivialExternals (.mat [[1, 1], [2, 2]]) [0, 1]
        none .skip).1 = .ok () ∧
      ([0, 1] : List Nat).length = ([[1, 1], [2, 2]] : List (List ℚ)).length) ∧
    ((modelWithOldPca.fit trivialExternals (.mat [[1, 1], [2, 2]]) [0, 1]
        (some 7) (.given pcaNew)).2.m = modelWithOldPca.m ∧
      (modelWithOldPca.fit trivialExternals (.mat [[1, 1], [2, 2]]) [0, 1]
        (some 5) .skip).2.pca = none ∧
      Model.fit trivialExternals Model.init (.mat [[1, 1], [2, 2]]) [0, 1]
          none .skip =
        Model.fit trivialExternals modelWithOldPca (.mat [[1, 1], [2, 2]])
          [0, 1] none .skip ∧
      (modelWithOldPca.fit trivialExternals (.mat [[1, 1], [2, 2]]) [0, 1]
        none .skip).2.prior_params.isSome) := by
  refine ⟨⟨rfl, rfl, rfl⟩, ?_, ?_, ?_, ?_⟩
  · exact ((fit_field_update_discipline trivialExternals modelWithOldPca
      (.mat [[1, 1], [2, 2]]) [0, 1] (some 7) (.given pcaNew)).1
      .valueError rfl).1
  · exact (fit_field_update_discipline trivialExternals modelWithOldPca
      (.mat [[1, 1], [2, 2]]) [0, 1] (some 5) .skip).2.1
      [[1, 1], [2, 2]] rfl
  · exact (fit_field_update_discipline trivialExternals modelWithOldPca
      (.mat [[1, 1], [2, 2]]) [0, 1] none .skip).2.2.2.1 Model.init rfl
  · exact ((fit_field_update_discipline trivialExternals modelWithOldPca
      (.mat [[1, 1], [2, 2]]) [0, 1] none .skip).2.2.2.2 rfl).2.2.2.2.2.1


/-- Appending batches preserves the asserted trailing dimension. -/
theorem lastDim_mat_append (A B : List (List ℝ)) (d : Nat)
    (hA : Arr.lastDim (Arr.mat A) = d) (hB : Arr.lastDim (Arr.mat B) = d) :
    Arr.lastDim (Arr.mat (A ++ B)) = d := by
  cases A <;> simp_all [Arr.lastDim]

/-- Appending 3-D batches preserves the asserted trailing dimension. -/
theorem lastDim_cube_append (A B : List (List (List ℝ))) (d : Nat)
    (hA : Arr.lastDim (Arr.cube A) = d) (hB : Arr.lastDim (Arr.cube B) = d) :
    Arr.lastDim (Arr.cube (A ++ B)) = d := by
  cases A <;> simp_all [Arr.lastDim]

/-- Evaluation of the marginal likelihood on a 2-D batch whose trailing
dimension passes the assert. -/
theorem ml_mat_eval (model : Model ℝ) (d : Nat)
    (hd : model.get_dimensionality "U_model" = .ok d)
    (M : List (List ℝ)) (hM : Arr.lastDim (Arr.mat M) = d) :
    model.calc_logp_marginal_likelihood (.mat M) =
      match model.prior_params with
      | none => .error .typeError
      | some pp => .ok (marginalSum pp.cov_diag M) := by
  unfold Model.calc_logp_marginal_likelihood
  rcases hpp : model.prior_params with _ | pp <;>
    simp [hd, hM, hpp, Arr.promote]

/-- Evaluation of the marginal likelihood on a 3-D batch whose trailing
dimension passes the assert. -/
theorem ml_cube_eval (model : Model ℝ) (d : Nat)
    (hd : model.get_dimensionality "U_model" = .ok d)
    (C : List (List (List ℝ))) (hC : Arr.lastDim (Arr.cube C) = d) :
    model.calc_logp_marginal_likelihood (.cube C) =
      match model.prior_params with
      | none => .error .typeError
      | some _ => .error .valueError := by
  unfold Model.calc_logp_marginal_likelihood
  rcases hpp : model.prior_params with _ | pp <;>
    simp [hd, hC, hpp, Arr.promote]

/-- The closed-form marginal likelihood only reads the batch size, the
per-column sums and sums of squares, all invariant under swapping the
two halves of a concatenated batch. -/
theorem marginalSum_append_comm (ψ : List ℝ) (A B : List (List ℝ)) :
    marginalSum ψ (A ++ B) = marginalSum ψ (B ++ A) := by
  unfold marginalSum
  have hn : (B ++ A).length = (A ++ B).length := by
    simp [List.length_append, Nat.add_comm]
  simp only [hn]
  apply Finset.sum_congr rfl
  intro j _
  simp only [colAt, List.map_append, List.sum_append]
  ring

/-- C4: the same/different log-likelihood-ratio score is invariant under
swapping its two batch arguments, whatever the model state and the
arguments' shapes (both computations also fail identically whenever one
fails). -/
theorem same_diff_ratio_symmetric (model : Model ℝ) (p g : Arr ℝ) :
    model.calc_same_diff_log_likelihood_ratio p g =
      model.calc_same_diff_log_likelihood_ratio g p := by
  unfold Model.calc_same_diff_log_likelihood_ratio
  rcases hd : model.get_dimensionality "U_model" with e | d
  · rfl
  · by_cases hp : p.lastDim ≠ d
    · by_cases hg : g.lastDim ≠ d <;> simp [hp, hg]
    · by_cases hg : g.lastDim ≠ d
      · simp [hp, hg]
      · push_neg at hp hg
        simp only [hp, hg, ne_eq, not_true_eq_false, if_false, reduceIte]
        rcases p with a | A | C <;> rcases g with b | B | C2 <;>
          simp only [Arr.concatenate] <;> try rfl
        · have ha : a.length = d := hp
          have hb : b.length = d := hg
          by_cases hzero : d = 0
          · subst hzero
            have ha' : a = [] := List.length_eq_zero.mp ha
            have hb' : b = [] := List.length_eq_zero.mp hb
            subst ha'; subst hb'
            rfl
          · have h2d : Arr.lastDim (Arr.vec (a ++ b)) ≠ d := by
              simp [Arr.lastDim, ha, hb]; omega
            have h2d' : Arr.lastDim (Arr.vec (b ++ a)) ≠ d := by
              simp [Arr.lastDim, ha, hb]; omega
            unfold Model.calc_logp_marginal_likelihood
            simp [hd, h2d, h2d']
            try rfl
        · have hAB := lastDim_mat_append A B d hp hg
          have hBA := lastDim_mat_append B A d hg hp
          rw [ml_mat_eval model d hd (A ++ B) hAB,
            ml_mat_eval model d hd (B ++ A) hBA,
            ml_mat_eval model d hd A hp, ml_mat_eval model d hd B hg]
          rcases hpp : model.prior_params with _ | pp
          · rfl
          · show Except.ok (marginalSum pp.cov_diag (A ++ B) -
                (marginalSum pp.cov_diag A + marginalSum pp.cov_diag B)) =
              Except.ok (marginalSum pp.cov_diag (B ++ A) -
                (marginalSum pp.cov_diag B + marginalSum pp.cov_diag A))
            rw [marginalSum_append_comm pp.cov_diag A B,
              add_comm (marginalSum pp.cov_diag A)]
        · have hAB := lastDim_cube_append C C2 d hp hg
          have hBA := lastDim_cube_append C2 C d hg hp
          rw [ml_cube_eval model d hd (C ++ C2) hAB,
            ml_cube_eval model d hd (C2 ++ C) hBA]
          rcases hpp : model.prior_params with _ | pp <;> rfl

/-- C9: the marginal likelihood reads only `prior_params["cov_diag"]`
(and the relevant-dimension count for its shape assert); two models that
agree on those — in particular two models differing only in
`prior_params["mean"]` — produce identical results on every input.  The
computation implicitly assumes a zero-mean prior. -/
theorem marginal_likelihood_independent_of_prior_mean
    (m1 m2 : Model ℝ) (b : Arr ℝ)
    (hdims : m1.relevant_U_dims = m2.relevant_U_dims)
    (hcov : m1.prior_params.map GaussParams.cov_diag =
            m2.prior_params.map GaussParams.cov_diag) :
    m1.calc_logp_marginal_likelihood b = m2.calc_logp_marginal_likelihood b := by
  have hd : m1.get_dimensionality "U_model" = m2.get_dimensionality "U_model" := by
    unfold Model.get_dimensionality
    rw [hdims]
    simp
  unfold Model.calc_logp_marginal_likelihood
  rw [hd]
  rcases hgd : m2.get_dimensionality "U_model" with e | d
  · rfl
  · rcases h1 : m1.prior_params with _ | pp1 <;>
      rcases h2 : m2.prior_params with _ | pp2 <;>
      simp [h1, h2] at hcov ⊢
    rw [hcov]

/-- A fitted model over ℝ with prior mean zero. -/
def exampleModelR : Model ℝ where
  pca := none
  m := some [0]
  A := some [[1]]
  Psi := some [1]
  relevant_U_dims := some [0]
  inv_A := some [[1]]
  prior_params := some ⟨[0], [1]⟩
  posterior_params := some [(0, ⟨[0], [1]⟩)]
  posterior_predictive_params := some [(0, ⟨[0], [2]⟩)]

/-- The same model with the prior mean shifted to 5 (covariance kept). -/
def exampleModelRShifted : Model ℝ :=
  { exampleModelR with prior_params := some ⟨[5], [1]⟩ }

/-- C9 witness: two concrete models differing only in the prior mean
give the same marginal likelihood on a concrete batch. -/
theorem marginal_likelihood_independent_of_prior_mean_witness :
    (exampleModelR.relevant_U_dims = exampleModelRShifted.relevant_U_dims ∧
      exampleModelR.prior_params.map GaussParams.cov_diag =
        exampleModelRShifted.prior_params.map GaussParams.cov_diag) ∧
    exampleModelR.calc_logp_marginal_likelihood (.mat [[1, 2], [3, 4]]) =
      exampleModelRShifted.calc_logp_marginal_likelihood (.mat [[1, 2], [3, 4]]) :=
  ⟨⟨rfl, rfl⟩, marginal_likelihood_independent_of_prior_mean
    exampleModelR exampleModelRShifted (.mat [[1, 2], [3, 4]]) rfl rfl⟩

/-- C1: on a fitted model, the marginal likelihood of a batch of exactly
one sample (a single U_model vector) equals the log-density of that
vector under the zero-mean diagonal Gaussian whose per-dimension variance
is `prior_cov_diag + 1` — the prior variance plus the unit noise variance
of the whitened latent space — i.e. the n=1 case of the closed form is
the ordinary covariance-sum Gaussian log-density, matching the
posterior-predictive closed form by construction. -/
theorem marginal_likelihood_singleton_is_gaussian
    (model : Model ℝ) (pp : GaussParams ℝ) (dims : List Nat) (v : List ℝ)
    (hpp : model.prior_params = some pp)
    (hdims : model.relevant_U_dims = some dims)
    (hv : v.length = dims.length)
    (hpos : ∀ x ∈ pp.cov_diag, 0 ≤ x) :
    model.calc_logp_marginal_likelihood (.vec v) =
      .ok (gaussianDiagLogpdf (List.replicate pp.cov_diag.length 0)
        (pp.cov_diag.map (fun p => p + 1)) v) := by
  have hd : model.get_dimensionality "U_model" = .ok dims.length := by
    unfold Model.get_dimensionality; simp [hdims]
  unfold Model.calc_logp_marginal_likelihood
  simp only [hd, Arr.lastDim, hv, ne_eq, not_true_eq_false, if_false,
    reduceIte, hpp, Arr.promote]
  congr 1
  unfold marginalSum gaussianDiagLogpdf
  rw [List.length_map]
  apply Finset.sum_congr rfl
  intro j hj
  have hj' : j < pp.cov_diag.length := Finset.mem_range.mp hj
  have hψ : 0 ≤ pp.cov_diag.getD j 0 := by
    have hmem : pp.cov_diag.getD j 0 ∈ pp.cov_diag := by
      rw [List.getD_eq_getElem pp.cov_diag 0 hj']
      exact List.getElem_mem hj'
    exact hpos _ hmem
  have hcov : (pp.cov_diag.map (fun p => p + 1)).getD j 0 =
      pp.cov_diag.getD j 0 + 1 := by
    rw [List.getD_eq_getElem _ 0 (by simpa using hj'),
      List.getD_eq_getElem pp.cov_diag 0 hj', List.getElem_map]
  have hmean : (List.replicate pp.cov_diag.length (0:ℝ)).getD j 0 = 0 := by
    rw [List.getD_eq_getElem _ 0 (by simpa using hj')]
    simp
  rw [hcov, hmean]
  set ψ := pp.cov_diag.getD j 0 with hψdef
  have h1 : (0:ℝ) < ψ + 1 := by linarith
  have hlog : Real.log (2 * Real.pi * (ψ + 1)) =
      Real.log (2 * Real.pi) + Real.log (ψ + 1) := by
    rw [Real.log_mul (by positivity) (ne_of_gt h1)]
  simp only [colAt, List.map_cons, List.map_nil, List.sum_cons, List.sum_nil,
    List.length_cons, List.length_nil, Nat.cast_one, hlog]
  field_simp
  ring

/-- C1 witness: the n=1 reduction instantiated on a concrete fitted
model (prior covariance [1]) and the vector [1/2]. -/
theorem marginal_likelihood_singleton_is_gaussian_witness :
    (exampleModelR.prior_params = some ⟨[0], [1]⟩ ∧
      exampleModelR.relevant_U_dims = some [0] ∧
      ([(1:ℝ)/2] : List ℝ).length = [0].length ∧
      (∀ x ∈ (GaussParams.mk (α := ℝ) [0] [1]).cov_diag, 0 ≤ x)) ∧
    exampleModelR.calc_logp_marginal_likelihood (.vec [1/2]) =
      .ok (gaussianDiagLogpdf (List.replicate 1 0)
        (([1] : List ℝ).map (fun p => p + 1)) [1/2]) := by
  refine ⟨⟨rfl, rfl, rfl, ?_⟩, ?_⟩
  · intro x hx
    simp only [List.mem_singleton] at hx
    subst hx
    norm_num
  · exact marginal_likelihood_singleton_is_gaussian exampleModelR
      ⟨[0], [1]⟩ [0] [1/2] rfl rfl rfl
      (by intro x hx; simp only [List.mem_singleton] at hx; subst hx; norm_num)

/-- C10: on a fitted model with a non-empty relevant-dimension set of
size d, passing two single 1-D vectors of length d to
`calc_same_diff_log_likelihood_ratio` fails with the `AssertionError` of
the marginal-likelihood shape check: each argument passes its own
trailing-dimension assert, but `np.concatenate` joins two 1-D arrays
along the feature axis into one vector of length 2d, which no longer
matches d.  Only 2-D batches are accepted. -/
theorem same_diff_ratio_rejects_single_vectors
    (model : Model ℝ) (dims : List Nat) (p g : List ℝ)
    (hdims : model.relevant_U_dims = some dims)
    (hd0 : dims.length ≠ 0)
    (hp : p.length = dims.length) (hg : g.length = dims.length) :
    model.calc_same_diff_log_likelihood_ratio (.vec p) (.vec g) =
      .error .assertionError := by
  have hd : model.get_dimensionality "U_model" = .ok dims.length := by
    unfold Model.get_dimensionality; simp [hdims]
  unfold Model.calc_same_diff_log_likelihood_ratio
  simp only [hd, Arr.lastDim, hp, hg, ne_eq, not_true_eq_false, if_false,
    reduceIte, Arr.concatenate]
  have h2d : Arr.lastDim (Arr.vec (p ++ g)) ≠ dims.length := by
    simp only [Arr.lastDim, List.length_append, hp, hg]
    omega
  unfold Model.calc_logp_marginal_likelihood
  simp [hd, h2d]
  try rfl

/-- C10 witness: two concrete length-1 vectors on a model with one
relevant dimension make the ratio fail with `AssertionError`. -/
theorem same_diff_ratio_rejects_single_vectors_witness :
    (exampleModelR.relevant_U_dims = some [0] ∧ ([0] : List Nat).length ≠ 0 ∧
      ([(1:ℝ)/2] : List ℝ).length = [0].length) ∧
    exampleModelR.calc_same_diff_log_likelihood_ratio
      (.vec [1/2]) (.vec [1/2]) = .error .assertionError :=
  ⟨⟨rfl, by decide, rfl⟩,
    same_diff_ratio_rejects_single_vectors exampleModelR [0] [1/2] [1/2]
      rfl (by decide) rfl rfl⟩

/-- `m + (r - m) = r` elementwise, when the lengths agree. -/
lemma zipWith_add_sub_cancel' [CommRing α] (m r : List α)
    (h : r.length = m.length) :
    List.zipWith (fun x y => x + y) m
      (List.zipWith (fun x y => x - y) r m) = r := by
  induction m generalizing r with
  | nil => cases r <;> simp_all
  | cons a as ih =>
    cases r with
    | nil => simp_all
    | cons b bs =>
      simp only [List.zipWith_cons_cons, List.cons.injEq]
      constructor
      · ring
      · exact ih bs (by simpa using h)

/-- `(m + w) - m = w` elementwise, when the lengths agree. -/
lemma zipWith_sub_add_cancel' [CommRing α] (m w : List α)
    (h : w.length = m.length) :
    List.zipWith (fun x y => x - y)
      (List.zipWith (fun x y => x + y) m w) m = w := by
  induction m generalizing w with
  | nil => cases w <;> simp_all
  | cons a as ih =>
    cases w with
    | nil => simp_all
    | cons b bs =>
      simp only [List.zipWith_cons_cons, List.cons.injEq]
      constructor
      · ring
      · exact ih bs (by simpa using h)

/-- Sequential index assignment preserves the length of the target. -/
lemma foldl_set_length [Zero α] (ps : List (Nat × α)) (l : List α) :
    (ps.foldl (fun acc p => acc.set p.1 p.2) l).length = l.length := by
  induction ps generalizing l with
  | nil => rfl
  | cons p ps ih => simp [ih, List.length_set]

/-- The zero-filled embedding always has the full U dimensionality. -/
lemma embedRow_length [Zero α] (dims : List Nat) (dim : Nat) (r : List α) :
    (embedRow dims dim r).length = dim := by
  unfold embedRow
  rw [foldl_set_length]
  exact List.length_replicate dim 0

/-- Positions outside the assigned index set keep their value. -/
lemma foldl_set_getD_not_mem [Zero α] (ds : List Nat) (xs : List α)
    (l : List α) (i : Nat) (h : i ∉ ds) :
    ((ds.zip xs).foldl (fun acc p => acc.set p.1 p.2) l).getD i 0 =
      l.getD i 0 := by
  induction ds generalizing xs l with
  | nil => rfl
  | cons j ds ih =>
    cases xs with
    | nil => rfl
    | cons x xs =>
      simp only [List.zip_cons_cons, List.foldl_cons]
      rw [ih xs _ (fun hm => h (List.mem_cons_of_mem j hm))]
      have hij : i ≠ j := fun he => h (he ▸ List.mem_cons_self j ds)
      rcases Nat.lt_or_ge i l.length with hlt | hge
      · rw [List.getD_eq_getElem _ 0 (by simpa [List.length_set] using hlt),
          List.getD_eq_getElem _ 0 hlt]
        exact List.getElem_set_ne (Ne.symm hij) _
      · rw [List.getD_eq_default _ 0 (by simpa [List.length_set] using hge),
          List.getD_eq_default _ 0 hge]

/-- Reading back the assigned positions of a fancy-index assignment
recovers the assigned values (duplicate-free, in-range indices). -/
lemma select_foldl_set [Zero α] (ds : List Nat) (xs : List α) (l : List α)
    (hnd : ds.Nodup) (hbd : ∀ i ∈ ds, i < l.length)
    (hlen : xs.length = ds.length) :
    ds.map (fun i =>
      (((ds.zip xs).foldl (fun acc p => acc.set p.1 p.2) l)).getD i 0) = xs := by
  induction ds generalizing xs l with
  | nil =>
    have : xs = [] := List.length_eq_zero.mp hlen
    simp [this]
  | cons j ds ih =>
    cases xs with
    | nil => simp_all
    | cons x xs =>
      simp only [List.zip_cons_cons, List.foldl_cons, List.map_cons,
        List.cons.injEq]
      have hnotmem : j ∉ ds := (List.nodup_cons.mp hnd).1
      constructor
      · rw [foldl_set_getD_not_mem ds xs _ j hnotmem]
        have hj : j < l.length := hbd j (List.mem_cons_self j (by assumption))
        rw [List.getD_eq_getElem _ 0 (by simpa [List.length_set] using hj)]
        exact List.getElem_set_self (by simpa [List.length_set] using hj)
      · refine ih xs (l.set j x) (List.nodup_cons.mp hnd).2 ?_
          (by simpa using hlen)
        intro i hi
        rw [List.length_set]
        exact hbd i (List.mem_cons_of_mem j hi)

/-- Selecting the relevant coordinates of the zero-filled embedding
recovers the original U_model row. -/
lemma selectRow_embedRow [CommRing α] (dims : List Nat) (dim : Nat)
    (r : List α) (hnd : dims.Nodup) (hbd : ∀ i ∈ dims, i < dim)
    (hr : r.length = dims.length) :
    selectRow dims (embedRow dims dim r) = r := by
  unfold selectRow embedRow
  exact select_foldl_set dims r (List.replicate dim 0) hnd
    (by simpa using hbd) hr

/-- Bind on a successful result applies the continuation. -/
lemma ok_bind (x : Arr α) (f : Arr α → Except Err (Arr α)) :
    (Except.ok x : Except Err (Arr α)).bind f = f x := rfl

/-- A single vector is transformed exactly like its batch of one. -/
lemma transform_vec_eq_mat [CommRing α] (model : Model α) (v : List α)
    (f t : String) :
    model.transform (.vec v) f t = model.transform (.mat [v]) f t := rfl

/-- Evaluation of the X to D step on a 2-D batch. -/
lemma trEval_X_D [CommRing α] (model : Model α) (M : List (List α)) :
    model.transform (.mat M) "X" "D" =
      .ok (.mat (transform_X_to_D M model.pca)) := by
  cases hp : model.pca <;>
    simp [Model.transform, transformFuel, hp, Arr.promote, transform_X_to_D]

/-- Evaluation of the X to U step on a fitted model. -/
lemma trEval_X_U [CommRing α] (model : Model α) (m : List α)
    (iA : List (List α)) (hm : model.m = some m) (hiA : model.inv_A = some iA)
    (M : List (List α)) :
    model.transform (.mat M) "X" "U" = .ok (.mat (transform_X_to_U M iA m)) := by
  simp [Model.transform, transformFuel, hm, hiA, Arr.promote]

/-- Evaluation of the U to X step on a fitted model. -/
lemma trEval_U_X [CommRing α] (model : Model α) (m : List α)
    (A : List (List α)) (hm : model.m = some m) (hA : model.A = some A)
    (M : List (List α)) :
    model.transform (.mat M) "U" "X" = .ok (.mat (transform_U_to_X M A m)) := by
  simp [Model.transform, transformFuel, hm, hA, Arr.promote]

/-- Evaluation of the U to U_model step on a fitted model. -/
lemma trEval_U_Um [CommRing α] (model : Model α) (dims : List Nat)
    (hdims : model.relevant_U_dims = some dims) (M : List (List α)) :
    model.transform (.mat M) "U" "U_model" =
      .ok (.mat (transform_U_to_U_model M dims)) := by
  simp [Model.transform, transformFuel, hdims, Arr.promote]

/-- Evaluation of the U_model to U step on a fitted model. -/
lemma trEval_Um_U [CommRing α] (model : Model α) (A : List (List α))
    (dims : List Nat) (hA : model.A = some A)
    (hdims : model.relevant_U_dims = some dims) (M : List (List α)) :
    model.transform (.mat M) "U_model" "U" =
      .ok (.mat (transform_U_model_to_U M dims A.length)) := by
  simp [Model.transform, transformFuel, Model.get_dimensionality, hA, hdims,
    Arr.promote]

/-- Evaluation of the two-step D to U walk on a fitted model. -/
lemma trEval_D_U [CommRing α] (model : Model α) (m : List α)
    (iA : List (List α)) (hm : model.m = some m) (hiA : model.inv_A = some iA)
    (M : List (List α)) :
    model.transform (.mat M) "D" "U" =
      .ok (.mat (transform_X_to_U (transform_D_to_X M model.pca) iA m)) := by
  cases hp : model.pca <;>
    simp only [Model.transform, transformFuel, get_space_walk, hm, hiA, hp,
      Arr.promote, transform_D_to_X, List.foldlM] <;> rfl

/-- Evaluation of the two-step U to D walk on a fitted model. -/
lemma trEval_U_D [CommRing α] (model : Model α) (m : List α)
    (A : List (List α)) (hm : model.m = some m) (hA : model.A = some A)
    (M : List (List α)) :
    model.transform (.mat M) "U" "D" =
      .ok (.mat (transform_X_to_D (transform_U_to_X M A m) model.pca)) := by
  cases hp : model.pca <;>
    simp only [Model.transform, transformFuel, get_space_walk, hm, hA, hp,
      Arr.promote, transform_X_to_D, List.foldlM] <;> rfl

/-- Evaluation of the two-step U_model to X walk on a fitted model. -/
lemma trEval_Um_X [CommRing α] (model : Model α) (m : List α)
    (A : List (List α)) (dims : List Nat) (hm : model.m = some m)
    (hA : model.A = some A) (hdims : model.relevant_U_dims = some dims)
    (M : List (List α)) :
    model.transform (.mat M) "U_model" "X" =
      .ok (.mat (transform_U_to_X (transform_U_model_to_U M dims A.length) A m)) := by
  simp only [Model.transform, transformFuel, get_space_walk,
    Model.get_dimensionality, hm, hA, hdims, Arr.promote, List.foldlM]
  rfl

/-- Evaluation of the three-step D to U_model walk on a fitted model. -/
lemma trEval_D_Um [CommRing α] (model : Model α) (m : List α)
    (iA : List (List α)) (dims : List Nat) (hm : model.m = some m)
    (hiA : model.inv_A = some iA) (hdims : model.relevant_U_dims = some dims)
    (M : List (List α)) :
    model.transform (.mat M) "D" "U_model" =
      .ok (.mat (transform_U_to_U_model
        (transform_X_to_U (transform_D_to_X M model.pca) iA m) dims)) := by
  cases hp : model.pca <;>
    simp only [Model.transform, transformFuel, get_space_walk, hm, hiA, hdims,
      hp, Arr.promote, transform_D_to_X, List.foldlM] <;> rfl

/-- Evaluation of the three-step U_model to D walk on a fitted model. -/
lemma trEval_Um_D [CommRing α] (model : Model α) (m : List α)
    (A : List (List α)) (dims : List Nat) (hm : model.m = some m)
    (hA : model.A = some A) (hdims : model.relevant_U_dims = some dims)
    (M : List (List α)) :
    model.transform (.mat M) "U_model" "D" =
      .ok (.mat (transform_X_to_D
        (transform_U_to_X (transform_U_model_to_U M dims A.length) A m)
        model.pca)) := by
  cases hp : model.pca <;>
    simp only [Model.transform, transformFuel, get_space_walk,
      Model.get_dimensionality, hm, hA, hdims, hp, Arr.promote,
      transform_X_to_D, List.foldlM] <;> rfl

section RoundTripRows

variable [CommRing α] (m : List α) (A iA : List (List α))

/-- The affine whitening map and its inverse cancel (X to U to X). -/
lemma row_ux_xu (hmlen : m.length = A.length)
    (hAiA : ∀ w : List α, w.length = A.length → rowApply A (rowApply iA w) = w)
    (v : List α) (hv : v.length = A.length) :
    List.zipWith (fun x y => x + y) m
      (rowApply A (rowApply iA (List.zipWith (fun x y => x - y) v m))) = v := by
  have hw : (List.zipWith (fun x y => x - y) v m).length = A.length := by
    rw [List.length_zipWith]
    omega
  rw [hAiA _ hw]
  exact zipWith_add_sub_cancel' m v (by omega)

/-- The affine whitening map and its inverse cancel (U to X to U). -/
lemma row_xu_ux (hmlen : m.length = A.length)
    (hiAA : ∀ w : List α, w.length = A.length → rowApply iA (rowApply A w) = w)
    (v : List α) (hv : v.length = A.length) :
    rowApply iA (List.zipWith (fun x y => x - y)
      (List.zipWith (fun x y => x + y) m (rowApply A v)) m) = v := by
  have hw : (rowApply A v).length = m.length := by
    rw [hmlen]
    exact List.length_map A _
  rw [zipWith_sub_add_cancel' m _ hw]
  exact hiAA v hv

end RoundTripRows

section RoundTripMats

variable [CommRing α] (m : List α) (A iA : List (List α)) (dims : List Nat)

/-- Batch-level X to U to X cancellation. -/
lemma mat_UX_XU (hmlen : m.length = A.length)
    (hAiA : ∀ w : List α, w.length = A.length → rowApply A (rowApply iA w) = w)
    (M : List (List α)) (hM : ∀ r ∈ M, r.length = A.length) :
    transform_U_to_X (transform_X_to_U M iA m) A m = M := by
  unfold transform_U_to_X transform_X_to_U
  rw [List.map_map]
  conv_rhs => rw [show M = M.map id from (List.map_id M).symm]
  apply List.map_congr_left
  intro r hr
  exact row_ux_xu m A iA hmlen hAiA r (hM r hr)

/-- Batch-level U to X to U cancellation. -/
lemma mat_XU_UX (hmlen : m.length = A.length)
    (hiAA : ∀ w : List α, w.length = A.length → rowApply iA (rowApply A w) = w)
    (M : List (List α)) (hM : ∀ r ∈ M, r.length = A.length) :
    transform_X_to_U (transform_U_to_X M A m) iA m = M := by
  unfold transform_U_to_X transform_X_to_U
  rw [List.map_map]
  conv_rhs => rw [show M = M.map id from (List.map_id M).symm]
  apply List.map_congr_left
  intro r hr
  exact row_xu_ux m A iA hmlen hiAA r (hM r hr)

/-- Batch-level U_model to U to U_model cancellation: the zero-filled
embedding followed by coordinate selection is the identity. -/
lemma mat_Um_U_Um (dim : Nat) (hnd : dims.Nodup) (hbd : ∀ i ∈ dims, i < dim)
    (M : List (List α)) (hM : ∀ r ∈ M, r.length = dims.length) :
    transform_U_to_U_model (transform_U_model_to_U M dims dim) dims = M := by
  unfold transform_U_to_U_model transform_U_model_to_U
  rw [List.map_map]
  conv_rhs => rw [show M = M.map id from (List.map_id M).symm]
  apply List.map_congr_left
  intro r hr
  exact selectRow_embedRow dims dim r hnd hbd (hM r hr)

/-- Row lengths after the X to U step. -/
lemma rows_X_to_U (M : List (List α)) :
    ∀ r ∈ transform_X_to_U M iA m, r.length = iA.length := by
  intro r hr
  unfold transform_X_to_U at hr
  obtain ⟨s, _, hs⟩ := List.mem_map.mp hr
  rw [← hs]
  exact List.length_map iA _

/-- Row lengths after the U to X step. -/
lemma rows_U_to_X (hmlen : m.length = A.length) (M : List (List α)) :
    ∀ r ∈ transform_U_to_X M A m, r.length = A.length := by
  intro r hr
  unfold transform_U_to_X at hr
  obtain ⟨s, _, hs⟩ := List.mem_map.mp hr
  rw [← hs, List.length_zipWith]
  unfold rowApply
  rw [List.length_map, hmlen, min_self]

/-- Row lengths after the U_model to U embedding. -/
lemma rows_Um_to_U (dim : Nat) (M : List (List α)) :
    ∀ r ∈ transform_U_model_to_U M dims dim, r.length = dim := by
  intro r hr
  unfold transform_U_model_to_U at hr
  obtain ⟨s, _, hs⟩ := List.mem_map.mp hr
  rw [← hs]
  exact embedRow_length dims dim s

/-- Row lengths after the U to U_model selection. -/
lemma rows_U_to_Um (M : List (List α)) :
    ∀ r ∈ transform_U_to_U_model M dims, r.length = dims.length := by
  intro r hr
  unfold transform_U_to_U_model at hr
  obtain ⟨s, _, hs⟩ := List.mem_map.mp hr
  rw [← hs]
  exact List.length_map dims _

end RoundTripMats

/-- C2 amended: on a fitted model whose loading and its stored inverse
cancel, whose relevant dimensions are duplicate-free and in range, and
whose reduction basis (if any) round-trips losslessly in both directions,
`transform(transform(v, A, B), B, A)` reconstructs the batch-promoted `v`
for every pair of known spaces EXCEPT the pairs whose forward leg ends in
U_model from another space; for those the round trip zero-fills the
discarded dimensions and is idempotent (applying it to its own output
reproduces that output) but is not a true inverse. -/
theorem transform_round_trip_lossless [CommRing α]
    (model : Model α) (m : List α) (A iA : List (List α)) (dims : List Nat)
    (hm : model.m = some m) (hA : model.A = some A)
    (hiA : model.inv_A = some iA) (hdims : model.relevant_U_dims = some dims)
    (hmlen : m.length = A.length)
    (hAiA : ∀ w : List α, w.length = A.length → rowApply A (rowApply iA w) = w)
    (hiAA : ∀ w : List α, w.length = A.length → rowApply iA (rowApply A w) = w)
    (hnd : dims.Nodup) (hbd : ∀ i ∈ dims, i < A.length)
    (hfi : ∀ p, model.pca = some p →
      ∀ M : List (List α), p.inverse_transform (p.transform M) = M)
    (hif : ∀ p, model.pca = some p →
      ∀ M : List (List α), p.transform (p.inverse_transform M) = M)
    (hplen : ∀ p, model.pca = some p →
      ∀ M : List (List α), ∀ r ∈ p.transform M, r.length = A.length) :
    (∀ a ∈ spaceChain, ∀ b ∈ spaceChain, (b = "U_model" → a = "U_model") →
      ∀ v : List α, (a = "U_model" → v.length = dims.length) →
      ((a = "X" ∨ a = "U" ∨ (a = "D" ∧ model.pca = none)) →
        v.length = A.length) →
      (model.transform (.vec v) a b).bind
        (fun w => model.transform w b a) = .ok (.mat [v])) ∧
    (∀ a ∈ spaceChain, a ≠ "U_model" →
      ∀ v : List α,
      ((a = "X" ∨ a = "U" ∨ (a = "D" ∧ model.pca = none)) →
        v.length = A.length) →
      ∃ u : Arr α,
        (model.transform (.vec v) a "U_model").bind
          (fun w => model.transform w "U_model" a) = .ok u ∧
        (model.transform u a "U_model").bind
          (fun w => model.transform w "U_model" a) = .ok u) := by
  have hDX_XD : ∀ M : List (List α),
      transform_X_to_D (transform_D_to_X M model.pca) model.pca = M := by
    intro M
    cases hp : model.pca with
    | none => rfl
    | some p =>
      unfold transform_D_to_X transform_X_to_D
      exact hfi p hp M
  have hXD_DX : ∀ M : List (List α),
      transform_D_to_X (transform_X_to_D M model.pca) model.pca = M := by
    intro M
    cases hp : model.pca with
    | none => rfl
    | some p =>
      unfold transform_D_to_X transform_X_to_D
      exact hif p hp M
  have hrowsDX : ∀ (v : List α),
      ((model.pca = none → v.length = A.length)) →
      ∀ r ∈ transform_D_to_X [v] model.pca, r.length = A.length := by
    intro v hv r hr
    cases hp : model.pca with
    | none =>
      rw [hp] at hr
      unfold transform_D_to_X at hr
      simp only [List.mem_singleton] at hr
      rw [hr]
      exact hv hp
    | some p =>
      rw [hp] at hr
      unfold transform_D_to_X at hr
      exact hplen p hp [v] r hr
  constructor
  · intro a ha b hb hex v hv1 hv2
    fin_cases ha <;> fin_cases hb
    -- (D,D)
    · rfl
    -- (D,X)
    · rw [transform_vec_eq_mat, transform_D_X_mat_ok, ok_bind, trEval_X_D,
        hDX_XD]
    -- (D,U)
    · rw [transform_vec_eq_mat, trEval_D_U model m iA hm hiA, ok_bind,
        trEval_U_D model m A hm hA,
        mat_UX_XU m A iA hmlen hAiA _ (hrowsDX v (fun hp => hv2 (Or.inr (Or.inr ⟨rfl, hp⟩)))),
        hDX_XD]
    -- (D,U_model) excluded
    · exact absurd (hex rfl) (by decide)
    -- (X,D)
    · rw [transform_vec_eq_mat, trEval_X_D, ok_bind, transform_D_X_mat_ok,
        hXD_DX]
    -- (X,X)
    · rfl
    -- (X,U)
    · rw [transform_vec_eq_mat, trEval_X_U model m iA hm hiA, ok_bind,
        trEval_U_X model m A hm hA,
        mat_UX_XU m A iA hmlen hAiA [v] ?_]
      intro r hr
      simp only [List.mem_singleton] at hr
      rw [hr]
      exact hv2 (Or.inl rfl)
    -- (X,U_model) excluded
    · exact absurd (hex rfl) (by decide)
    -- (U,D)
    · rw [transform_vec_eq_mat, trEval_U_D model m A hm hA, ok_bind,
        trEval_D_U model m iA hm hiA, hXD_DX,
        mat_XU_UX m A iA hmlen hiAA [v] ?_]
      intro r hr
      simp only [List.mem_singleton] at hr
      rw [hr]
      exact hv2 (Or.inr (Or.inl rfl))
    -- (U,X)
    · rw [transform_vec_eq_mat, trEval_U_X model m A hm hA, ok_bind,
        trEval_X_U model m iA hm hiA,
        mat_XU_UX m A iA hmlen hiAA [v] ?_]
      intro r hr
      simp only [List.mem_singleton] at hr
      rw [hr]
      exact hv2 (Or.inr (Or.inl rfl))
    -- (U,U)
    · rfl
    -- (U,U_model) excluded
    · exact absurd (hex rfl) (by decide)
    -- (U_model,D)
    · rw [transform_vec_eq_mat, trEval_Um_D model m A dims hm hA hdims,
        ok_bind, trEval_D_Um model m iA dims hm hiA hdims, hXD_DX,
        mat_XU_UX m A iA hmlen hiAA _ (rows_Um_to_U dims A.length [v]),
        mat_Um_U_Um dims A.length hnd hbd [v] ?_]
      intro r hr
      simp only [List.mem_singleton] at hr
      rw [hr]
      exact hv1 rfl
    -- (U_model,X)
    · rw [transform_vec_eq_mat, trEval_Um_X model m A dims hm hA hdims,
        ok_bind, transform_X_U_model_mat_ok model m iA dims hm hiA hdims,
        mat_XU_UX m A iA hmlen hiAA _ (rows_Um_to_U dims A.length [v]),
        mat_Um_U_Um dims A.length hnd hbd [v] ?_]
      intro r hr
      simp only [List.mem_singleton] at hr
      rw [hr]
      exact hv1 rfl
    -- (U_model,U)
    · rw [transform_vec_eq_mat, trEval_Um_U model A dims hA hdims, ok_bind,
        trEval_U_Um model dims hdims,
        mat_Um_U_Um dims A.length hnd hbd [v] ?_]
      intro r hr
      simp only [List.mem_singleton] at hr
      rw [hr]
      exact hv1 rfl
    -- (U_model,U_model)
    · rfl
  · intro a ha hne v hv2
    fin_cases ha
    -- a = D
    · refine ⟨.mat (transform_X_to_D (transform_U_to_X
        (transform_U_model_to_U (transform_U_to_U_model
          (transform_X_to_U (transform_D_to_X [v] model.pca) iA m) dims)
          dims A.length) A m) model.pca), ?_, ?_⟩
      · rw [transform_vec_eq_mat, trEval_D_Um model m iA dims hm hiA hdims,
          ok_bind, trEval_Um_D model m A dims hm hA hdims]
      · rw [trEval_D_Um model m iA dims hm hiA hdims, hXD_DX,
          mat_XU_UX m A iA hmlen hiAA _
            (rows_Um_to_U dims A.length _),
          mat_Um_U_Um dims A.length hnd hbd _
            (rows_U_to_Um dims _),
          ok_bind, trEval_Um_D model m A dims hm hA hdims]
    -- a = X
    · refine ⟨.mat (transform_U_to_X
        (transform_U_model_to_U (transform_U_to_U_model
          (transform_X_to_U [v] iA m) dims) dims A.length) A m), ?_, ?_⟩
      · rw [transform_vec_eq_mat,
          transform_X_U_model_mat_ok model m iA dims hm hiA hdims, ok_bind,
          trEval_Um_X model m A dims hm hA hdims]
      · rw [transform_X_U_model_mat_ok model m iA dims hm hiA hdims,
          mat_XU_UX m A iA hmlen hiAA _
            (rows_Um_to_U dims A.length _),
          mat_Um_U_Um dims A.length hnd hbd _
            (rows_U_to_Um dims _),
          ok_bind, trEval_Um_X model m A dims hm hA hdims]
    -- a = U
    · refine ⟨.mat (transform_U_model_to_U
        (transform_U_to_U_model [v] dims) dims A.length), ?_, ?_⟩
      · rw [transform_vec_eq_mat, trEval_U_Um model dims hdims, ok_bind,
          trEval_Um_U model A dims hA hdims]
      · rw [trEval_U_Um model dims hdims,
          mat_Um_U_Um dims A.length hnd hbd _
            (rows_U_to_Um dims _),
          ok_bind, trEval_Um_U model A dims hA hdims]
    -- a = U_model: excluded by hne
    · exact absurd rfl hne

/-- A rank-reducing reduction basis: sklearn PCA fit with
`n_components=1` on two-feature data centred at the origin with first
principal axis `(1,0)` projects onto the first coordinate and
reconstructs with the second coordinate zero. -/
def lossyPCA : PCABasis ℚ :=
  ⟨1, 2, fun M => M.map (fun r => [r.getD 0 0]),
    fun M => M.map (fun r => [r.getD 0 0, 0])⟩

/-- A fitted model whose reduction basis is rank-reducing. -/
def lossyModel : Model ℚ where
  pca := some lossyPCA
  m := some [0]
  A := some [[1]]
  Psi := some [1]
  relevant_U_dims := some [0]
  inv_A := some [[1]]
  prior_params := some ⟨[0], [1]⟩
  posterior_params := some [(0, ⟨[0], [1]⟩)]
  posterior_predictive_params := some [(0, ⟨[0], [2]⟩)]

/-- C2 counterexample: with a rank-reducing reduction basis the round
trip D to X to D does not reconstruct the input: the vector `[0, 1]`
comes back as `[[0, 0]]`, not its batch promotion `[[0, 1]]`.  The claim
as stated (round trips reconstruct `v` for every pair except through
U_model) is therefore false on this fitted model. -/
theorem round_trip_fails_with_lossy_reduction :
    (lossyModel.transform (.vec [0, 1]) "D" "X").bind
      (fun w => lossyModel.transform w "X" "D") = .ok (.mat [[0, 0]]) ∧
    (Arr.mat [[(0:ℚ), 0]] ≠ Arr.mat [[0, 1]]) ∧
    (Arr.vec [(0:ℚ), 1]).promote = Arr.mat [[0, 1]] :=
  ⟨rfl, by decide, rfl⟩

/-- C2 amended witness: the X to U to X round trip instantiated on a
concrete fitted model with identity loading. -/
theorem transform_round_trip_lossless_witness :
    (exampleModel.m = some [0] ∧ exampleModel.pca = none ∧
      ([0] : List Nat).Nodup) ∧
    ((exampleModel.transform (.vec [3]) "X" "U").bind
      (fun w => exampleModel.transform w "U" "X") = .ok (.mat [[3]])) := by
  refine ⟨⟨rfl, rfl, by decide⟩, ?_⟩
  have hrow : ∀ w : List ℚ, w.length = ([[1]] : List (List ℚ)).length →
      rowApply [[1]] (rowApply [[1]] w) = w := by
    intro w hw
    simp only [List.length_singleton] at hw
    obtain ⟨x, rfl⟩ := List.length_eq_one.mp hw
    simp [rowApply, dot]
  exact (transform_round_trip_lossless exampleModel [0] [[1]] [[1]] [0]
    rfl rfl rfl rfl rfl hrow hrow (by decide) (by decide)
    (fun p hp => Option.noConfusion hp) (fun p hp => Option.noConfusion hp)
    (fun p hp => Option.noConfusion hp)).1
    "X" (by decide) "U" (by decide) (fun h => absurd h (by decide))
    [3] (fun h => absurd h (by decide)) (fun _ => rfl)
